import Mathlib

/-!
Verification of the ChromeSync data-migration core.

This file gives a shallow embedding of the extraction / import engine of the
ChromeSync repository (src/core/extractors, src/core/importers,
src/utils/security.py, src/main.py, src/gui/sync_worker.py) and proves the
behavioural properties stated in the specification against it.

Machine integers of the source are modelled as Nat / Int; Python float
division followed by int() truncation is modelled over ℚ with explicit
truncation toward zero; byte strings are lists of Nat; fallible operations
return Option / Except.
-/

/-- Python `int()` applied to a rational value: truncation toward zero. -/
def py_int (q : ℚ) : Int :=
  if q < 0 then ⌈q⌉ else ⌊q⌋

/-- A Chrome history entry, from `ChromeHistoryItem` in
`src/core/extractors/history_extractor.py`.  `visit_time` and
`last_visit_time` are microseconds since 1601-01-01 UTC. -/
structure ChromeHistoryItem where
  url : String
  title : String
  visit_time : Int
  visit_count : Nat
  last_visit_time : Int
  typed_count : Nat
  hidden : Bool
deriving DecidableEq, Repr

/-- The constructor of `ChromeHistoryItem`: `self.last_visit_time =
last_visit_time or visit_time` replaces a falsy (zero) `last_visit_time` by
`visit_time`. -/
def mkChromeHistoryItem (url title : String) (visit_time : Int)
    (visit_count : Nat) (last_visit_time : Int) (typed_count : Nat)
    (hidden : Bool) : ChromeHistoryItem :=
  { url := url, title := title, visit_time := visit_time,
    visit_count := visit_count,
    last_visit_time := if last_visit_time = 0 then visit_time else last_visit_time,
    typed_count := typed_count, hidden := hidden }

/-- The numeric value of the `ChromeHistoryItem.datetime` property: Chrome
microseconds are divided by 1000000 (Python float division, exact over ℚ),
the 1601→1970 epoch difference is subtracted, and a negative result is
clamped to 0. -/
def ChromeHistoryItem.unix_timestamp (item : ChromeHistoryItem) : ℚ :=
  let chrome_to_unix_epoch_diff : ℚ := 11644473600
  let ts := (item.visit_time : ℚ) / 1000000 - chrome_to_unix_epoch_diff
  if ts < 0 then 0 else ts

namespace BookmarkExtractor

/-- `date_added_unix = int(bookmark.date_added / 1000000 -
chrome_to_unix_epoch_diff)` in `BookmarkExtractor._write_bookmark_html`:
the value written into the `ADD_DATE` attribute.  No clamping. -/
def date_added_unix (date_added : Int) : Int :=
  py_int ((date_added : ℚ) / 1000000 - 11644473600)

/-- `int(bookmark.date_modified / 1000000 - chrome_to_unix_epoch_diff)`:
the value written into the `LAST_MODIFIED` attribute of a folder.  No
clamping. -/
def last_modified_unix (date_modified : Int) : Int :=
  py_int ((date_modified : ℚ) / 1000000 - 11644473600)

/-- The timestamp used for the human-readable `date_added_str`
(`datetime.fromtimestamp(max(0, date_added_unix))`): clamped at 0.  The
string itself is computed but never written to the export. -/
def date_added_str_ts (date_added : Int) : Int :=
  max 0 (date_added_unix date_added)

end BookmarkExtractor

/-- A decrypted credential, from `ChromePassword` in
`src/core/extractors/password_extractor.py`. -/
structure ChromePassword where
  origin_url : String
  username : String
  password : String
  action_url : String
  date_created : Int
  date_last_used : Int
deriving DecidableEq, Repr

/-- One row of the `logins` table of the source credential store. -/
structure LoginRow where
  origin_url : String
  action_url : String
  username_value : String
  password_value : List Nat
  date_created : Int
  date_last_used : Int
deriving DecidableEq, Repr

namespace PasswordExtractor

/-- The bytes of the modern version tag `b'v10'`. -/
def v10_tag : List Nat := [118, 49, 48]

/-- The two decryption schemes of
`PasswordExtractor._extract_passwords_direct_access`: AES-256-GCM with a
nonce and optional associated data, or DPAPI unwrapping of the whole blob. -/
inductive DecryptScheme where
  | aesgcm (nonce ciphertext : List Nat) (associated_data : Option (List Nat))
  | dpapi (blob : List Nat)
deriving DecidableEq, Repr

/-- Scheme selection: `encrypted_password.startswith(b'v10')` selects
AES-GCM with `initialization_vector = encrypted_password[3:15]`,
ciphertext `encrypted_password[15:]` and associated data `None`; any other
blob is passed whole to `win32crypt.CryptUnprotectData`. -/
def select_decrypt_scheme (encrypted_password : List Nat) : DecryptScheme :=
  if v10_tag.isPrefixOf encrypted_password then
    .aesgcm ((encrypted_password.drop 3).take 12) (encrypted_password.drop 15) none
  else
    .dpapi encrypted_password

/-- Oracle type for `AESGCM(key).decrypt(nonce, ct, None)`: `none` models a
raised exception (truncated ciphertext, bad tag, undecodable UTF-8). -/
def AesOracle := List Nat → List Nat → List Nat → Option String

/-- Oracle type for `win32crypt.CryptUnprotectData`: `none` models a raised
exception. -/
def DpapiOracle := List Nat → Option String

/-- Run the selected scheme through the corresponding OS / crypto call. -/
def run_decrypt_scheme (aes : AesOracle) (dpapi : DpapiOracle)
    (key : List Nat) : DecryptScheme → Option String
  | .aesgcm nonce ciphertext _ => aes key nonce ciphertext
  | .dpapi blob => dpapi blob

/-- Decryption of one `password_value` blob, as performed inside the row
loop of `_extract_passwords_direct_access`. -/
def decrypt_password (aes : AesOracle) (dpapi : DpapiOracle)
    (key : List Nat) (encrypted_password : List Nat) : Option String :=
  run_decrypt_scheme aes dpapi key (select_decrypt_scheme encrypted_password)

/-- The row loop of `_extract_passwords_direct_access`: an empty
`password_value` is skipped silently; a decryption failure is caught,
logged and the row skipped; a successful decryption appends a
`ChromePassword` built from the row. -/
def extract_rows (aes : AesOracle) (dpapi : DpapiOracle)
    (key : List Nat) : List LoginRow → List ChromePassword
  | [] => []
  | row :: rest =>
    if row.password_value = [] then
      extract_rows aes dpapi key rest
    else
      match decrypt_password aes dpapi key row.password_value with
      | some decrypted_password =>
          { origin_url := row.origin_url, username := row.username_value,
            password := decrypted_password, action_url := row.action_url,
            date_created := row.date_created,
            date_last_used := row.date_last_used } :: extract_rows aes dpapi key rest
      | none => extract_rows aes dpapi key rest

end PasswordExtractor

/-- Spec-side definition (from the specification's words, for comparison
with the source): the "v10/v11"-class of modern 3-byte version tags. -/
def spec_modern_tag_class (encrypted_password : List Nat) : Prop :=
  encrypted_password.take 3 = [118, 49, 48] ∨ encrypted_password.take 3 = [118, 49, 49]

/-- One row of a `moz_places` table (staging copy or destination
`places.sqlite`), with the columns used by
`HistoryExtractor.save_to_sqlite` and
`HistoryImporter._import_history_via_database`. -/
structure MozPlace where
  id : Nat
  url : String
  title : String
  rev_host : String
  visit_count : Nat
  hidden : Nat
  typed : Nat
  frecency : Nat
  last_visit_date : Int
  guid : String
deriving DecidableEq, Repr

/-- One row of a `moz_historyvisits` table. -/
structure MozHistoryVisit where
  id : Nat
  from_visit : Nat
  place_id : Nat
  visit_date : Int
  visit_type : Nat
  session : Nat
deriving DecidableEq, Repr

/-- A places store: the two tables touched by the merge, rows in rowid
order. -/
structure PlacesDb where
  moz_places : List MozPlace
  moz_historyvisits : List MozHistoryVisit
deriving DecidableEq, Repr

namespace HistoryExtractor

/-- `''.join(reversed(item.url.split('/')[2])) + '.'` in `save_to_sqlite`
(the split on the single character `'/'` taken over the character list):
`none` models the `IndexError` raised when the URL has no third
slash-separated component. -/
def rev_host_of (url : String) : Option String :=
  ((url.data.splitOn '/')[2]?).map (fun host => String.mk (host.reverse ++ ['.']))

/-- The `moz_places` row inserted by `save_to_sqlite` for the item at
0-based loop index `i`; SQLite assigns rowid `i + 1`. -/
def staged_place (i : Nat) (item : ChromeHistoryItem) (rev_host : String) : MozPlace :=
  { id := i + 1, url := item.url, title := item.title, rev_host := rev_host,
    visit_count := item.visit_count,
    hidden := if item.hidden then 1 else 0,
    typed := item.typed_count, frecency := 100,
    last_visit_date := item.last_visit_time,
    guid := "chrome-import-" ++ toString i }

/-- The `moz_historyvisits` row inserted by `save_to_sqlite` for the item
at loop index `i`: `place_id = cursor.lastrowid`, `from_visit = 0`,
`visit_type = 1`, `session = 0`. -/
def staged_visit (i : Nat) (item : ChromeHistoryItem) : MozHistoryVisit :=
  { id := i + 1, from_visit := 0, place_id := i + 1,
    visit_date := item.visit_time, visit_type := 1, session := 0 }

/-- The insertion loop of `save_to_sqlite`, from loop index `i`. -/
def save_rows (i : Nat) :
    List ChromeHistoryItem → Except Unit (List MozPlace × List MozHistoryVisit)
  | [] => .ok ([], [])
  | item :: rest =>
    match rev_host_of item.url with
    | none => .error ()
    | some rh =>
      match save_rows (i + 1) rest with
      | .error e => .error e
      | .ok (places, visits) =>
          .ok (staged_place i item rh :: places, staged_visit i item :: visits)

/-- `HistoryExtractor.save_to_sqlite`: stages one `moz_places` row and one
`moz_historyvisits` row per history item; an `IndexError` while computing
`rev_host` propagates as an exception. -/
def save_to_sqlite (history_items : List ChromeHistoryItem) : Except Unit PlacesDb :=
  match save_rows 0 history_items with
  | .error e => .error e
  | .ok (places, visits) => .ok { moz_places := places, moz_historyvisits := visits }

end HistoryExtractor

namespace HistoryImporter

/-- `SELECT MAX(id) FROM moz_places` followed by `fetchone()[0] or 0`. -/
def max_place_id (db : PlacesDb) : Nat :=
  (db.moz_places.map (fun p => p.id)).foldr Nat.max 0

/-- `SELECT MAX(id) FROM moz_historyvisits` followed by
`fetchone()[0] or 0`. -/
def max_visit_id (db : PlacesDb) : Nat :=
  (db.moz_historyvisits.map (fun v => v.id)).foldr Nat.max 0

/-- `SELECT id FROM moz_places WHERE url = ?` with `fetchone()`: the id of
the first row carrying `url`, if any.  Run against the live destination
connection, so rows inserted earlier in the same merge are visible. -/
def find_url_id (places : List MozPlace) (url : String) : Option Nat :=
  (places.find? (fun p => p.url = url)).map (fun p => p.id)

/-- One iteration of the place-import loop of
`_import_history_via_database`: compute the candidate
`new_place_id = max_place_id + old_place_id`, record it in the mapping,
then if the URL already exists redirect the mapping to the existing row's
id and skip the insert, otherwise insert the row under the candidate id. -/
def place_step (mpid : Nat) :
    List MozPlace × (Nat → Option Nat) → MozPlace → List MozPlace × (Nat → Option Nat)
  | (dest, mapping), place =>
    let new_place_id := mpid + place.id
    match find_url_id dest place.url with
    | some existing =>
        (dest, fun k => if k = place.id then some existing else mapping k)
    | none =>
        (dest ++ [{ place with id := new_place_id }],
         fun k => if k = place.id then some new_place_id else mapping k)

/-- The full place-import loop over the staged `moz_places` rows. -/
def place_loop (mpid : Nat) (s : List MozPlace × (Nat → Option Nat))
    (places : List MozPlace) : List MozPlace × (Nat → Option Nat) :=
  places.foldl (place_step mpid) s

/-- The visit-import loop of `_import_history_via_database`, from
enumeration index `i`: a visit whose `place_id` has no mapping is skipped
silently; otherwise it is inserted under
`new_visit_id = max_visit_id + i + 1` with the remapped place id and the
original `from_visit`, `visit_date`, `visit_type` and `session` fields. -/
def visit_loop (mapping : Nat → Option Nat) (mvid : Nat) :
    Nat → List MozHistoryVisit → List MozHistoryVisit
  | _, [] => []
  | i, visit :: rest =>
    match mapping visit.place_id with
    | none => visit_loop mapping mvid (i + 1) rest
    | some new_place_id =>
        { id := mvid + i + 1, from_visit := visit.from_visit,
          place_id := new_place_id, visit_date := visit.visit_date,
          visit_type := visit.visit_type, session := visit.session } ::
          visit_loop mapping mvid (i + 1) rest

/-- The identifier map built by the place loop of a merge of `temp_db`
into `places_db` (the Python `place_id_mapping` dict, empty at entry). -/
def place_id_mapping (places_db temp_db : PlacesDb) : Nat → Option Nat :=
  (place_loop (max_place_id places_db) (places_db.moz_places, fun _ => none)
    temp_db.moz_places).2

/-- The destination store after the first `k` row operations of a merge
(staged places first, then staged visits), mirroring the write order of
`_import_history_via_database`. -/
def merge_steps (places_db temp_db : PlacesDb) (k : Nat) : PlacesDb :=
  let s := place_loop (max_place_id places_db)
    (places_db.moz_places, fun _ => none) (temp_db.moz_places.take k)
  { moz_places := s.1,
    moz_historyvisits := places_db.moz_historyvisits ++
      visit_loop s.2 (max_visit_id places_db) 0
        (temp_db.moz_historyvisits.take (k - temp_db.moz_places.length)) }

/-- Result of `_import_history_via_database`: its boolean return value and
the final content of the destination `places.sqlite`. -/
structure ImportResult where
  success : Bool
  places_db : PlacesDb
deriving DecidableEq, Repr

/-- `HistoryImporter._import_history_via_database`.  A backup of the
destination file is taken (`shutil.copy2`) before the try block; `fault =
some k` injects an exception after `k` row operations, upon which the
except branch restores the destination from the backup and returns
`False`; with no fault the merge runs to completion and returns `True`. -/
def import_history_via_database (places_db temp_db : PlacesDb)
    (fault : Option Nat) : ImportResult :=
  let backup := places_db
  match fault with
  | none =>
      { success := true,
        places_db := merge_steps places_db temp_db
          (temp_db.moz_places.length + temp_db.moz_historyvisits.length) }
  | some k =>
      let _interrupted := merge_steps places_db temp_db k
      { success := false, places_db := backup }

/-- Number of rows of a places table carrying a given URL. -/
def count_url (places : List MozPlace) (url : String) : Nat :=
  (places.filter (fun p => p.url = url)).length

/-- Specification helper: how many rows the place loop inserts, counted
over the incoming URL sequence against an evolving destination URL list
(the loop sees its own earlier inserts). -/
def count_new_urls (dest_urls : List String) : List String → Nat
  | [] => 0
  | u :: us =>
    if u ∈ dest_urls then count_new_urls dest_urls us
    else count_new_urls (dest_urls ++ [u]) us + 1

end HistoryImporter

/-- A destination browser profile, from `ZenProfile` in
`src/core/importers/profile_detector.py`. -/
structure ZenProfile where
  name : String
  path : String
  is_default : Bool
  is_active : Bool
deriving DecidableEq, Repr

/-- Environment of one `HistoryImporter.import_history` call: the profile
the detector would resolve, whether the destination browser is running,
the destination `places.sqlite` content (`none` = file missing), and an
optional injected fault inside the merge. -/
structure HistoryImportEnv where
  default_profile : Option ZenProfile
  zen_running : Bool
  places_db : Option PlacesDb
  fault : Option Nat

namespace HistoryImporter

/-- `HistoryImporter.import_history`: an empty item list returns `True` at
once; otherwise the profile is resolved (failure returns `False`), a
running destination browser aborts with `False`, the items are staged via
`save_to_sqlite` (an exception is caught, returning `False`), a missing
`places.sqlite` returns `False`, and finally the merge runs.  The second
component is the destination store content after the call. -/
def import_history (history_items : List ChromeHistoryItem)
    (profile : Option ZenProfile) (env : HistoryImportEnv) :
    Bool × Option PlacesDb :=
  if history_items = [] then (true, env.places_db)
  else
    match profile.orElse (fun _ => env.default_profile) with
    | none => (false, env.places_db)
    | some _ =>
      if env.zen_running then (false, env.places_db)
      else
        match HistoryExtractor.save_to_sqlite history_items with
        | .error _ => (false, env.places_db)
        | .ok temp_db =>
          match env.places_db with
          | none => (false, env.places_db)
          | some db =>
            let r := import_history_via_database db temp_db env.fault
            (r.success, some r.places_db)

end HistoryImporter

/-- A bookmark node, from `ChromeBookmark` in
`src/core/extractors/bookmark_extractor.py` (the fields used by the HTML
export). -/
structure ChromeBookmark where
  title : String
  url : String
  date_added : Int
  date_modified : Int
  is_folder : Bool
deriving DecidableEq, Repr

namespace BookmarkImporter

/-- `BookmarkImporter.import_bookmarks`: an empty bookmark list returns
`True` at once, before the profile is resolved or any file or GUI work
happens; otherwise the profile is resolved (failure returns `False`) and
the HTML export plus GUI-automation import runs, whose outcome is the
environment-supplied `gui_result` (`.error` models an exception, caught
and turned into `False`).  The second component records whether the
GUI-automation import was invoked. -/
def import_bookmarks (bookmarks : List ChromeBookmark)
    (profile : Option ZenProfile) (default_profile : Option ZenProfile)
    (gui_result : Except Unit Bool) : Bool × Bool :=
  if bookmarks = [] then (true, false)
  else
    match profile.orElse (fun _ => default_profile) with
    | none => (false, false)
    | some _ =>
      match gui_result with
      | .ok result => (result, true)
      | .error _ => (false, true)

end BookmarkImporter

/-- The three data types of a pipeline run, in the fixed execution order
of `ChromeSync.synchronize_all`. -/
inductive SyncDataType where
  | passwords
  | bookmarks
  | history
deriving DecidableEq, Repr

/-- Position of a data type in the execution order. -/
def SyncDataType.idx : SyncDataType → Nat
  | .passwords => 0
  | .bookmarks => 1
  | .history => 2

/-- The per-type selection flags read from
`config_manager.get('sync', 'data_types', ...)`. -/
structure SyncPrefs where
  passwords : Bool
  bookmarks : Bool
  history : Bool
deriving DecidableEq, Repr

/-- Selection flag of one data type. -/
def SyncPrefs.selected (sel : SyncPrefs) : SyncDataType → Bool
  | .passwords => sel.passwords
  | .bookmarks => sel.bookmarks
  | .history => sel.history

/-- Behaviour of one data type's extract-and-import sequence when it runs
uninterrupted: the import returns `True`, the import returns `False`, or
an exception escapes the sequence. -/
inductive StepOutcome where
  | ok
  | failed
  | raised
deriving DecidableEq, Repr

/-- The boolean recorded in `results[t]` for an uninterrupted sequence:
the import's return value, or `False` when the except branch runs. -/
def step_result : StepOutcome → Bool
  | .ok => true
  | _ => false

namespace ChromeSync

/-- One selected data type's block in `synchronize_all`.  When the
progress sink has signalled cancellation at or before this type
(`SyncThread.progress_callback` raises `Exception("Synchronization
cancelled by user")` at every progress report once the flag is set), the
exception is raised at the type's next progress report, caught by the
type's `except` branch, and `results[t]` is set to `False`; otherwise the
sequence runs and `results[t]` records its outcome. -/
def run_data_type (cancel_from : Option SyncDataType)
    (behave : SyncDataType → StepOutcome) (t : SyncDataType) : Bool :=
  match cancel_from with
  | some c => if c.idx ≤ t.idx then false else step_result (behave t)
  | none => step_result (behave t)

/-- Outcome of one `synchronize_all` run: the three entries of the
`results` dict, the selected types whose blocks were entered, and the
method's return value. -/
structure SyncRunOutcome where
  results_passwords : Bool
  results_bookmarks : Bool
  results_history : Bool
  attempted : List SyncDataType
  returned : Bool
deriving DecidableEq, Repr

/-- The `results` entry for a data type. -/
def SyncRunOutcome.result (r : SyncRunOutcome) : SyncDataType → Bool
  | .passwords => r.results_passwords
  | .bookmarks => r.results_bookmarks
  | .history => r.results_history

/-- `ChromeSync.synchronize_all` (per-type phase).  `results` starts all
`False`; each selected type's block is entered in the fixed order
passwords, bookmarks, history regardless of earlier failures or
cancellation; `overall_success = any(results.values())`.  When
cancellation was signalled, the final `progress_callback(100, 100, ...)`
raises, the outer except branch runs (its own progress report raises
again), and the method does not return `overall_success`: the run ends in
failure. -/
def synchronize_all (sel : SyncPrefs) (cancel_from : Option SyncDataType)
    (behave : SyncDataType → StepOutcome) : SyncRunOutcome :=
  let rp := if sel.passwords then run_data_type cancel_from behave .passwords else false
  let rb := if sel.bookmarks then run_data_type cancel_from behave .bookmarks else false
  let rh := if sel.history then run_data_type cancel_from behave .history else false
  let overall_success := rp || rb || rh
  { results_passwords := rp, results_bookmarks := rb, results_history := rh,
    attempted :=
      (if sel.passwords then [SyncDataType.passwords] else []) ++
      (if sel.bookmarks then [SyncDataType.bookmarks] else []) ++
      (if sel.history then [SyncDataType.history] else []),
    returned :=
      match cancel_from with
      | some _ => false
      | none => overall_success }

end ChromeSync

/-- The byte pattern written by one overwrite of `secure_delete_file`. -/
inductive WipePattern where
  | zeros
  | ones
  | random
deriving DecidableEq, Repr

/-- One overwrite performed by `secure_delete_file`: the pattern, the
number of bytes written (always the file's full size), and whether
`os.fsync` ran after the write (it always does). -/
structure WipePass where
  pattern : WipePattern
  bytes_written : Nat
  fsynced : Bool
deriving DecidableEq, Repr

namespace SecurityUtils

/-- The overwrite sequence of `secure_delete_file` on an existing file of
size `file_size`: `for _ in range(passes)` around three write blocks
(zeros, then ones, then `os.urandom`), each writing `file_size` bytes and
fsyncing. -/
def overwrite_sequence (passes : Nat) (file_size : Nat) : List WipePass :=
  (List.range passes).foldr
    (fun _ acc =>
      { pattern := .zeros, bytes_written := file_size, fsynced := true } ::
      { pattern := .ones, bytes_written := file_size, fsynced := true } ::
      { pattern := .random, bytes_written := file_size, fsynced := true } :: acc)
    []

/-- Result of one `secure_delete_file` call: its boolean return value, the
overwrites performed, and whether the file was removed from disk. -/
structure DeleteResult where
  returned : Bool
  writes : List WipePass
  removed : Bool
deriving DecidableEq, Repr

/-- `secure_delete_file(file_path, passes=3)` on a file of `file_size`
bytes.  A missing or non-regular path returns `False`.  `io_fault = some
j` injects an I/O error after `j` overwrites: the except branch falls back
to `os.remove` (a plain unlink, which itself can fail when
`unlink_fails`).  Otherwise all overwrites run and the file is removed. -/
def secure_delete_file (file_exists is_file : Bool) (file_size : Nat)
    (passes : Nat) (io_fault : Option Nat) (unlink_fails : Bool) : DeleteResult :=
  if ¬ (file_exists ∧ is_file) then
    { returned := false, writes := [], removed := false }
  else
    match io_fault with
    | some j =>
        if unlink_fails then
          { returned := false,
            writes := (overwrite_sequence passes file_size).take j, removed := false }
        else
          { returned := true,
            writes := (overwrite_sequence passes file_size).take j, removed := true }
    | none =>
        { returned := true, writes := overwrite_sequence passes file_size,
          removed := true }

end SecurityUtils


/-! ### Helper lemmas -/

theorem py_int_of_neg (q : ℚ) (h : q < 0) : py_int q = ⌈q⌉ := by
  simp [py_int, h]

theorem unix_timestamp_clamps (item : ChromeHistoryItem)
    (h : item.visit_time < 11644473600 * 1000000) :
    item.unix_timestamp = 0 := by
  have h6 : (0:ℚ) < 1000000 := by norm_num
  have hq : (item.visit_time : ℚ) < 11644473600 * 1000000 := by exact_mod_cast h
  have hlt : (item.visit_time : ℚ) / 1000000 - 11644473600 < 0 := by
    rw [sub_neg, div_lt_iff₀ h6]
    linarith
  simp [ChromeHistoryItem.unix_timestamp, hlt]

theorem export_ts_nonpos (d : Int) (h : d < 11644473600 * 1000000) :
    py_int ((d : ℚ) / 1000000 - 11644473600) ≤ 0 := by
  have h6 : (0:ℚ) < 1000000 := by norm_num
  have hq : (d : ℚ) < 11644473600 * 1000000 := by exact_mod_cast h
  have hlt : (d : ℚ) / 1000000 - 11644473600 < 0 := by
    rw [sub_neg, div_lt_iff₀ h6]
    linarith
  rw [py_int_of_neg _ hlt]
  have : ((d : ℚ) / 1000000 - 11644473600) ≤ ((0 : ℤ) : ℚ) := by
    push_cast
    linarith
  exact Int.ceil_le.mpr this

theorem export_ts_neg (d : Int) (h : d ≤ (11644473600 - 1) * 1000000) :
    py_int ((d : ℚ) / 1000000 - 11644473600) < 0 := by
  have h6 : (0:ℚ) < 1000000 := by norm_num
  have hq : (d : ℚ) ≤ (11644473600 - 1) * 1000000 := by exact_mod_cast h
  have hle : (d : ℚ) / 1000000 - 11644473600 ≤ ((-1 : ℤ) : ℚ) := by
    rw [sub_le_iff_le_add, div_le_iff₀ h6]
    push_cast
    linarith
  have hlt : (d : ℚ) / 1000000 - 11644473600 < 0 := by
    have : ((-1 : ℤ) : ℚ) < 0 := by norm_num
    linarith [hle]
  rw [py_int_of_neg _ hlt]
  have : ⌈(d : ℚ) / 1000000 - 11644473600⌉ ≤ -1 := Int.ceil_le.mpr hle
  omega

theorem v10_isPrefixOf_iff (blob : List Nat) :
    PasswordExtractor.v10_tag.isPrefixOf blob = true ↔
      blob.take 3 = PasswordExtractor.v10_tag := by
  rw [List.isPrefixOf_iff_prefix, List.prefix_iff_eq_take]
  have h3 : PasswordExtractor.v10_tag.length = 3 := rfl
  rw [h3]
  exact eq_comm

/-! ### C8: timestamp clamping -/

/-- C8 counterexample: for source timestamp 0 (which is below the epoch
offset), the bookmark-export `ADD_DATE` attribute value is the negative
number -11644473600, not the claimed clamped 0. -/
theorem c8_bookmark_add_date_not_clamped :
    (0 : Int) < 11644473600 * 1000000 ∧
      BookmarkExtractor.date_added_unix 0 = -11644473600 := by
  constructor
  · norm_num
  · have h : ((0 : Int) : ℚ) / 1000000 - 11644473600 < 0 := by norm_num
    rw [BookmarkExtractor.date_added_unix, py_int_of_neg _ h]
    rw [show ((0 : Int) : ℚ) / 1000000 - 11644473600 = ((-11644473600 : ℤ) : ℚ) by norm_num,
      Int.ceil_intCast]

/-- C8 (amended): the history-item conversion clamps every pre-epoch
source timestamp to exactly 0, but the bookmark-export `ADD_DATE` /
`LAST_MODIFIED` attributes are written unclamped: for a pre-epoch source
timestamp they are at most 0, and negative once the timestamp is at least
one second below the offset; only the unused human-readable string
timestamp is clamped at 0. -/
theorem c8_timestamp_clamp :
    (∀ item : ChromeHistoryItem,
        item.visit_time < 11644473600 * 1000000 → item.unix_timestamp = 0) ∧
    (∀ d : Int, d < 11644473600 * 1000000 →
        BookmarkExtractor.date_added_unix d ≤ 0 ∧
        BookmarkExtractor.last_modified_unix d ≤ 0) ∧
    (∀ d : Int, d ≤ (11644473600 - 1) * 1000000 →
        BookmarkExtractor.date_added_unix d < 0) ∧
    (∀ d : Int, 0 ≤ BookmarkExtractor.date_added_str_ts d) := by
  refine ⟨unix_timestamp_clamps, fun d h => ⟨?_, ?_⟩, fun d h => ?_, fun d => ?_⟩
  · exact export_ts_nonpos d h
  · exact export_ts_nonpos d h
  · exact export_ts_neg d h
  · exact le_max_left 0 _

/-- C8 witness: the amended theorem applied to the concrete source
timestamp 5 (history side) and 0 (bookmark side). -/
theorem c8_timestamp_clamp_witness :
    ((5 : Int) < 11644473600 * 1000000 ∧
      (ChromeHistoryItem.mk "https://a.test" "A" 5 1 5 0 false).unix_timestamp = 0) ∧
    ((0 : Int) < 11644473600 * 1000000 ∧ BookmarkExtractor.date_added_unix 0 ≤ 0) :=
  ⟨⟨by norm_num, c8_timestamp_clamp.1 _ (by norm_num)⟩,
   ⟨by norm_num, (c8_timestamp_clamp.2.1 0 (by norm_num)).1⟩⟩

/-! ### C7: decryption scheme selection -/

/-- C7 counterexample: the blob whose 3-byte version tag is `v11` is of
the spec's modern "v10/v11" class, yet the code routes the whole blob to
the DPAPI branch (the code tests only `startswith(b'v10')`), not to
AES-GCM. -/
theorem c7_v11_routed_to_dpapi :
    spec_modern_tag_class [118, 49, 49, 0, 1, 2] ∧
      PasswordExtractor.select_decrypt_scheme [118, 49, 49, 0, 1, 2] =
        PasswordExtractor.DecryptScheme.dpapi [118, 49, 49, 0, 1, 2] := by
  constructor
  · exact Or.inr rfl
  · rfl

/-- C7 (amended): only the exact 3-byte tag `v10` selects the modern
scheme — AES-GCM with the 12-byte nonce at bytes 3..15, the ciphertext
from byte 15 on, and no associated data; every other blob, including a
`v11`-tagged one, is passed whole to the OS data-protection unwrap with no
explicit nonce. -/
theorem c7_scheme_selection (aes : PasswordExtractor.AesOracle)
    (dpapi : PasswordExtractor.DpapiOracle) (key blob : List Nat) :
    (blob.take 3 = PasswordExtractor.v10_tag →
      PasswordExtractor.select_decrypt_scheme blob =
        PasswordExtractor.DecryptScheme.aesgcm ((blob.drop 3).take 12) (blob.drop 15) none ∧
      PasswordExtractor.decrypt_password aes dpapi key blob =
        aes key ((blob.drop 3).take 12) (blob.drop 15)) ∧
    (blob.take 3 ≠ PasswordExtractor.v10_tag →
      PasswordExtractor.select_decrypt_scheme blob =
        PasswordExtractor.DecryptScheme.dpapi blob ∧
      PasswordExtractor.decrypt_password aes dpapi key blob = dpapi blob) := by
  constructor
  · intro h
    have hb : PasswordExtractor.v10_tag.isPrefixOf blob = true :=
      (v10_isPrefixOf_iff blob).mpr h
    constructor
    · simp [PasswordExtractor.select_decrypt_scheme, hb]
    · simp [PasswordExtractor.decrypt_password, PasswordExtractor.select_decrypt_scheme,
        PasswordExtractor.run_decrypt_scheme, hb]
  · intro h
    have hb : ¬ PasswordExtractor.v10_tag.isPrefixOf blob = true := by
      intro hc
      exact h ((v10_isPrefixOf_iff blob).mp hc)
    constructor
    · simp [PasswordExtractor.select_decrypt_scheme, hb]
    · simp [PasswordExtractor.decrypt_password, PasswordExtractor.select_decrypt_scheme,
        PasswordExtractor.run_decrypt_scheme, hb]

/-- C7 witness: the amended theorem applied to a concrete 16-byte
`v10`-tagged blob, with concrete oracles. -/
theorem c7_scheme_selection_witness :
    ([118, 49, 48, 3, 4, 5, 6, 7, 8, 9, 10, 11, 12, 13, 14, 99] : List Nat).take 3 =
        PasswordExtractor.v10_tag ∧
      PasswordExtractor.decrypt_password (fun _ _ _ => some "pw") (fun _ => none) []
          [118, 49, 48, 3, 4, 5, 6, 7, 8, 9, 10, 11, 12, 13, 14, 99] =
        (fun (_ _ _ : List Nat) => some "pw") [] [3, 4, 5, 6, 7, 8, 9, 10, 11, 12, 13, 14]
          [99] :=
  ⟨rfl,
   (c7_scheme_selection (fun _ _ _ => some "pw") (fun _ => none) []
      [118, 49, 48, 3, 4, 5, 6, 7, 8, 9, 10, 11, 12, 13, 14, 99]).1 rfl |>.2⟩

/-! ### C9: secure delete pass discipline -/

/-- C9: the code performs `passes * 3` overwrites, not the documented
three.  At the default `passes = 3` on an existing 1-byte regular file the
zeros/ones/random triple is written three times (nine overwrites, each of
the full byte length and fsynced, then the file is unlinked); an I/O fault
during the overwrites still removes the file through the plain-unlink
fallback and returns `True`. -/
theorem c9_secure_delete_passes :
    ((SecurityUtils.secure_delete_file true true 1 3 none false).writes.map
        WipePass.pattern =
      [.zeros, .ones, .random, .zeros, .ones, .random, .zeros, .ones, .random]) ∧
    (SecurityUtils.secure_delete_file true true 1 3 none false).writes.map
        WipePass.pattern ≠ [.zeros, .ones, .random] ∧
    (∀ w ∈ (SecurityUtils.secure_delete_file true true 1 3 none false).writes,
      w.bytes_written = 1 ∧ w.fsynced = true) ∧
    (SecurityUtils.secure_delete_file true true 1 3 none false).returned = true ∧
    (SecurityUtils.secure_delete_file true true 1 3 none false).removed = true ∧
    (SecurityUtils.secure_delete_file true true 1 3 (some 1) false).removed = true ∧
    (SecurityUtils.secure_delete_file true true 1 3 (some 1) false).returned = true := by
  refine ⟨rfl, by decide, ?_, rfl, rfl, rfl, rfl⟩
  decide

/-! ### C1: merge rollback atomicity -/

/-- C1: if an exception is injected after any number `k` of row
operations of the merge (the snapshot having been taken before the try
block), the destination store handed back is the snapshot, so its place
and visit row counts equal the pre-merge counts, and the operation
reports failure. -/
theorem c1_merge_rollback (places_db temp_db : PlacesDb) (k : Nat) :
    (HistoryImporter.import_history_via_database places_db temp_db (some k)).success
        = false ∧
    (HistoryImporter.import_history_via_database places_db temp_db
          (some k)).places_db.moz_places.length = places_db.moz_places.length ∧
    (HistoryImporter.import_history_via_database places_db temp_db
          (some k)).places_db.moz_historyvisits.length =
        places_db.moz_historyvisits.length := by
  refine ⟨rfl, rfl, rfl⟩

/-! ### C4: overall-success policy -/

/-- C4: for a pipeline run in which no cancellation is signalled, the
value returned by `synchronize_all` is `True` exactly when at least one
selected data type's extract-and-import sequence succeeded; unselected
types keep their initial `False` entry and cannot contribute. -/
theorem c4_overall_success_policy (sel : SyncPrefs)
    (behave : SyncDataType → StepOutcome) :
    (ChromeSync.synchronize_all sel none behave).returned = true ↔
      ((sel.passwords = true ∧ step_result (behave .passwords) = true) ∨
       (sel.bookmarks = true ∧ step_result (behave .bookmarks) = true) ∨
       (sel.history = true ∧ step_result (behave .history) = true)) := by
  rcases sel with ⟨p, b, h⟩
  cases p <;> cases b <;> cases h <;>
    (simp [ChromeSync.synchronize_all, ChromeSync.run_data_type]; try tauto)

/-! ### C5: cancellation semantics -/

/-- C5 counterexample: with all three types selected, all of them healthy,
and cancellation signalled during the passwords step, the pipeline still
enters the bookmarks and history blocks (they are scheduled and then fail
at their first progress report), every `results` entry is the plain
failure value `False` — there is no distinct cancelled outcome — and the
run returns `False`. -/
theorem c5_cancellation_counterexample :
    (ChromeSync.synchronize_all ⟨true, true, true⟩ (some .passwords)
        (fun _ => .ok)).attempted =
      [SyncDataType.passwords, SyncDataType.bookmarks, SyncDataType.history] ∧
    (ChromeSync.synchronize_all ⟨true, true, true⟩ (some .passwords)
        (fun _ => .ok)).result .passwords = false ∧
    (ChromeSync.synchronize_all ⟨true, true, true⟩ (some .passwords)
        (fun _ => .ok)).result .bookmarks = false ∧
    (ChromeSync.synchronize_all ⟨true, true, true⟩ (some .passwords)
        (fun _ => .ok)).result .history = false ∧
    (ChromeSync.synchronize_all ⟨true, true, true⟩ (some .passwords)
        (fun _ => .ok)).returned = false := by
  decide

/-- C5 (amended): when cancellation is signalled from type `c` onwards,
the cancellation exception is caught at each type boundary but recorded as
a plain failure — every type at or after `c` ends with `results` entry
`False`, indistinguishable from a failed type — the pipeline still enters
the block of every selected type, and the run as a whole returns `False`
(the final progress report raises). -/
theorem c5_cancellation_amended (sel : SyncPrefs)
    (behave : SyncDataType → StepOutcome) (c t : SyncDataType)
    (h : c.idx ≤ t.idx) :
    (ChromeSync.synchronize_all sel (some c) behave).result t = false ∧
    (∀ u, sel.selected u = true →
      u ∈ (ChromeSync.synchronize_all sel (some c) behave).attempted) ∧
    (ChromeSync.synchronize_all sel (some c) behave).returned = false := by
  refine ⟨?_, ?_, rfl⟩
  · cases t <;>
      simp [ChromeSync.synchronize_all, ChromeSync.SyncRunOutcome.result,
        ChromeSync.run_data_type, h]
  · intro u hu
    cases u <;>
      simp [SyncPrefs.selected] at hu <;>
      simp [ChromeSync.synchronize_all, hu]

/-- C5 witness: the amended theorem applied with all types selected,
healthy behaviour, cancellation from the passwords step, observed at the
bookmarks type. -/
theorem c5_cancellation_amended_witness :
    SyncDataType.passwords.idx ≤ SyncDataType.bookmarks.idx ∧
    (ChromeSync.synchronize_all ⟨true, true, true⟩ (some .passwords)
        (fun _ => .ok)).result .bookmarks = false ∧
    (∀ u, SyncPrefs.selected ⟨true, true, true⟩ u = true →
      u ∈ (ChromeSync.synchronize_all ⟨true, true, true⟩ (some .passwords)
        (fun _ => .ok)).attempted) ∧
    (ChromeSync.synchronize_all ⟨true, true, true⟩ (some .passwords)
        (fun _ => .ok)).returned = false :=
  ⟨by decide,
   c5_cancellation_amended ⟨true, true, true⟩ (fun _ => .ok) .passwords .bookmarks
     (by decide)⟩

/-! ### C10: empty-input import counts as success -/

/-- C10: importing an empty history or bookmark list returns `True`
immediately, leaving the destination untouched (and, for bookmarks, never
invoking the GUI import); and a selected data type whose sequence yields
the import result `True` makes the pipeline run successful. -/
theorem c10_empty_import_success :
    (∀ (profile : Option ZenProfile) (env : HistoryImportEnv),
        HistoryImporter.import_history [] profile env = (true, env.places_db)) ∧
    (∀ (profile default_profile : Option ZenProfile) (gui : Except Unit Bool),
        BookmarkImporter.import_bookmarks [] profile default_profile gui =
          (true, false)) ∧
    (∀ (sel : SyncPrefs) (behave : SyncDataType → StepOutcome),
        sel.history = true → behave .history = .ok →
        (ChromeSync.synchronize_all sel none behave).returned = true) := by
  refine ⟨fun profile env => rfl, fun p d g => rfl, fun sel behave h1 h2 => ?_⟩
  simp [ChromeSync.synchronize_all, ChromeSync.run_data_type, h1, h2, step_result]

/-- C10 witness: the pipeline conjunct applied with only history selected
and a succeeding sequence. -/
theorem c10_empty_import_success_witness :
    (⟨false, false, true⟩ : SyncPrefs).history = true ∧
    (fun (_ : SyncDataType) => StepOutcome.ok) SyncDataType.history = StepOutcome.ok ∧
    (ChromeSync.synchronize_all ⟨false, false, true⟩ none
        (fun _ => StepOutcome.ok)).returned = true :=
  ⟨rfl, rfl, c10_empty_import_success.2.2 ⟨false, false, true⟩ (fun _ => .ok) rfl rfl⟩

/-! ### C6: per-record failure isolation -/

theorem extract_rows_append (aes : PasswordExtractor.AesOracle)
    (dpapi : PasswordExtractor.DpapiOracle) (key : List Nat)
    (l₁ l₂ : List LoginRow) :
    PasswordExtractor.extract_rows aes dpapi key (l₁ ++ l₂) =
      PasswordExtractor.extract_rows aes dpapi key l₁ ++
        PasswordExtractor.extract_rows aes dpapi key l₂ := by
  induction l₁ with
  | nil => rfl
  | cons r rest ih =>
    simp only [List.cons_append, PasswordExtractor.extract_rows]
    by_cases hemp : r.password_value = []
    · simp [hemp, ih]
    · cases hdec : PasswordExtractor.decrypt_password aes dpapi key r.password_value <;>
        simp [hemp, hdec, ih]

theorem extract_rows_length_all_ok (aes : PasswordExtractor.AesOracle)
    (dpapi : PasswordExtractor.DpapiOracle) (key : List Nat)
    (rows : List LoginRow)
    (h : ∀ r ∈ rows, r.password_value ≠ [] ∧
      (PasswordExtractor.decrypt_password aes dpapi key r.password_value).isSome = true) :
    (PasswordExtractor.extract_rows aes dpapi key rows).length = rows.length := by
  induction rows with
  | nil => rfl
  | cons r rest ih =>
    obtain ⟨hne, hsome⟩ := h r (List.mem_cons_self r rest)
    obtain ⟨pw, hpw⟩ := Option.isSome_iff_exists.mp hsome
    have hrest := fun r' hr' => h r' (List.mem_cons_of_mem r hr')
    simp [PasswordExtractor.extract_rows, hne, hpw, ih hrest]

/-- C6: in a batch whose rows all have non-empty, decryptable ciphertexts
except for one undecryptable row, the extraction loop yields exactly one
credential fewer than the number of rows; the failing row is skipped and
the loop (a total function) completes without raising. -/
theorem c6_credential_failure_isolation (aes : PasswordExtractor.AesOracle)
    (dpapi : PasswordExtractor.DpapiOracle) (key : List Nat)
    (pre post : List LoginRow) (bad : LoginRow)
    (hgood : ∀ r ∈ pre ++ post, r.password_value ≠ [] ∧
      (PasswordExtractor.decrypt_password aes dpapi key r.password_value).isSome = true)
    (hbad_ne : bad.password_value ≠ [])
    (hbad : PasswordExtractor.decrypt_password aes dpapi key bad.password_value = none) :
    (PasswordExtractor.extract_rows aes dpapi key (pre ++ bad :: post)).length =
      (pre ++ bad :: post).length - 1 := by
  have hpre : ∀ r ∈ pre, r.password_value ≠ [] ∧
      (PasswordExtractor.decrypt_password aes dpapi key r.password_value).isSome = true :=
    fun r hr => hgood r (List.mem_append_left post hr)
  have hpost : ∀ r ∈ post, r.password_value ≠ [] ∧
      (PasswordExtractor.decrypt_password aes dpapi key r.password_value).isSome = true :=
    fun r hr => hgood r (List.mem_append_right pre hr)
  have hsplit : pre ++ bad :: post = (pre ++ [bad]) ++ post := by simp
  rw [hsplit, extract_rows_append, extract_rows_append]
  have h1 := extract_rows_length_all_ok aes dpapi key pre hpre
  have h2 := extract_rows_length_all_ok aes dpapi key post hpost
  have hb : PasswordExtractor.extract_rows aes dpapi key [bad] = [] := by
    simp [PasswordExtractor.extract_rows, hbad_ne, hbad]
  simp [hb, h1, h2]

/-- C6 witness: the isolation theorem applied to a concrete three-row
batch whose middle row is undecryptable. -/
theorem c6_credential_failure_isolation_witness :
    (∀ r ∈ [LoginRow.mk "https://one.example" "" "alice" [1] 10 20] ++
        [LoginRow.mk "https://three.example" "" "carol" [3] 12 22],
      r.password_value ≠ [] ∧
      (PasswordExtractor.decrypt_password (fun _ _ _ => none)
        (fun b => if b = [2] then none else some "pw") [] r.password_value).isSome = true) ∧
    (LoginRow.mk "https://two.example" "" "bob" [2] 11 21).password_value ≠ [] ∧
    PasswordExtractor.decrypt_password (fun _ _ _ => none)
      (fun b => if b = [2] then none else some "pw") []
      (LoginRow.mk "https://two.example" "" "bob" [2] 11 21).password_value = none ∧
    (PasswordExtractor.extract_rows (fun _ _ _ => none)
        (fun b => if b = [2] then none else some "pw") []
        ([LoginRow.mk "https://one.example" "" "alice" [1] 10 20] ++
          LoginRow.mk "https://two.example" "" "bob" [2] 11 21 ::
            [LoginRow.mk "https://three.example" "" "carol" [3] 12 22])).length =
      ([LoginRow.mk "https://one.example" "" "alice" [1] 10 20] ++
        LoginRow.mk "https://two.example" "" "bob" [2] 11 21 ::
          [LoginRow.mk "https://three.example" "" "carol" [3] 12 22]).length - 1 :=
  ⟨by decide, by decide, by decide,
   c6_credential_failure_isolation (fun _ _ _ => none)
     (fun b => if b = [2] then none else some "pw") []
     [LoginRow.mk "https://one.example" "" "alice" [1] 10 20]
     [LoginRow.mk "https://three.example" "" "carol" [3] 12 22]
     (LoginRow.mk "https://two.example" "" "bob" [2] 11 21)
     (by decide) (by decide) (by decide)⟩

/-! ### Merge helper lemmas -/

theorem find_url_id_eq_none (d : List MozPlace) (u : String) :
    HistoryImporter.find_url_id d u = none ↔ ∀ p ∈ d, p.url ≠ u := by
  simp [HistoryImporter.find_url_id, List.find?_eq_none]

theorem find_url_id_mem (d : List MozPlace) (u : String) (x : Nat)
    (h : HistoryImporter.find_url_id d u = some x) :
    ∃ p ∈ d, p.url = u ∧ p.id = x := by
  rw [HistoryImporter.find_url_id, Option.map_eq_some'] at h
  obtain ⟨p, hp, hx⟩ := h
  refine ⟨p, List.mem_of_find?_eq_some hp, ?_, hx⟩
  have := List.find?_some hp
  simpa using this

theorem find_url_id_append_left (d l : List MozPlace) (u : String) (x : Nat)
    (h : HistoryImporter.find_url_id d u = some x) :
    HistoryImporter.find_url_id (d ++ l) u = some x := by
  rw [HistoryImporter.find_url_id, Option.map_eq_some'] at h
  obtain ⟨p, hp, hx⟩ := h
  rw [HistoryImporter.find_url_id, List.find?_append, hp]
  simpa using hx

theorem place_step_found (mpid : Nat) (d : List MozPlace) (m : Nat → Option Nat)
    (q : MozPlace) (x : Nat) (h : HistoryImporter.find_url_id d q.url = some x) :
    HistoryImporter.place_step mpid (d, m) q =
      (d, fun k => if k = q.id then some x else m k) := by
  simp [HistoryImporter.place_step, h]

theorem place_step_not_found (mpid : Nat) (d : List MozPlace) (m : Nat → Option Nat)
    (q : MozPlace) (h : HistoryImporter.find_url_id d q.url = none) :
    HistoryImporter.place_step mpid (d, m) q =
      (d ++ [{ q with id := mpid + q.id }],
       fun k => if k = q.id then some (mpid + q.id) else m k) := by
  simp [HistoryImporter.place_step, h]

theorem place_loop_nil (mpid : Nat) (s : List MozPlace × (Nat → Option Nat)) :
    HistoryImporter.place_loop mpid s [] = s := rfl

theorem place_loop_cons (mpid : Nat) (s : List MozPlace × (Nat → Option Nat))
    (q : MozPlace) (ps : List MozPlace) :
    HistoryImporter.place_loop mpid s (q :: ps) =
      HistoryImporter.place_loop mpid (HistoryImporter.place_step mpid s q) ps := rfl

theorem place_loop_mapping_some (mpid : Nat) (ps : List MozPlace) :
    ∀ (d : List MozPlace) (m : Nat → Option Nat) (k x : Nat), m k = some x →
      ∃ y, (HistoryImporter.place_loop mpid (d, m) ps).2 k = some y := by
  induction ps with
  | nil => exact fun d m k x h => ⟨x, h⟩
  | cons q rest ih =>
    intro d m k x h
    rw [place_loop_cons]
    cases hf : HistoryImporter.find_url_id d q.url with
    | some ex =>
      rw [place_step_found mpid d m q ex hf]
      by_cases hk : k = q.id
      · exact ih d _ k ex (by simp [hk])
      · exact ih d _ k x (by simp [hk, h])
    | none =>
      rw [place_step_not_found mpid d m q hf]
      by_cases hk : k = q.id
      · exact ih _ _ k (mpid + q.id) (by simp [hk])
      · exact ih _ _ k x (by simp [hk, h])

theorem place_loop_mapping_mem (mpid : Nat) (ps : List MozPlace) :
    ∀ (d : List MozPlace) (m : Nat → Option Nat) (p : MozPlace), p ∈ ps →
      ∃ y, (HistoryImporter.place_loop mpid (d, m) ps).2 p.id = some y := by
  induction ps with
  | nil => intro d m p hp; simp at hp
  | cons q rest ih =>
    intro d m p hp
    rw [place_loop_cons]
    rcases List.mem_cons.mp hp with rfl | hmem
    · cases hf : HistoryImporter.find_url_id d p.url with
      | some ex =>
        rw [place_step_found mpid d m p ex hf]
        exact place_loop_mapping_some mpid rest d _ p.id ex (by simp)
      | none =>
        rw [place_step_not_found mpid d m p hf]
        exact place_loop_mapping_some mpid rest _ _ p.id (mpid + p.id) (by simp)
    · cases hf : HistoryImporter.find_url_id d q.url with
      | some ex =>
        rw [place_step_found mpid d m q ex hf]
        exact ih d _ p hmem
      | none =>
        rw [place_step_not_found mpid d m q hf]
        exact ih _ _ p hmem

theorem place_loop_mapping_stable (mpid : Nat) (ps : List MozPlace) :
    ∀ (d : List MozPlace) (m : Nat → Option Nat) (k : Nat),
      (∀ p ∈ ps, p.id ≠ k) →
      (HistoryImporter.place_loop mpid (d, m) ps).2 k = m k := by
  induction ps with
  | nil => intro d m k _; rfl
  | cons q rest ih =>
    intro d m k h
    have hq : k ≠ q.id := fun hk => h q (List.mem_cons_self q rest) hk.symm
    have hrest : ∀ p ∈ rest, p.id ≠ k := fun p hp => h p (List.mem_cons_of_mem q hp)
    rw [place_loop_cons]
    cases hf : HistoryImporter.find_url_id d q.url with
    | some ex =>
      rw [place_step_found mpid d m q ex hf, ih d _ k hrest]
      simp [hq]
    | none =>
      rw [place_step_not_found mpid d m q hf, ih _ _ k hrest]
      simp [hq]

theorem place_step_find_pres (mpid : Nat) (d : List MozPlace) (m : Nat → Option Nat)
    (q : MozPlace) (U : String) (uid : Nat)
    (h : HistoryImporter.find_url_id d U = some uid) :
    HistoryImporter.find_url_id (HistoryImporter.place_step mpid (d, m) q).1 U = some uid := by
  cases hf : HistoryImporter.find_url_id d q.url with
  | some ex => rw [place_step_found mpid d m q ex hf]; exact h
  | none => rw [place_step_not_found mpid d m q hf]; exact find_url_id_append_left d _ U uid h

theorem place_loop_find_pres (mpid : Nat) (ps : List MozPlace) :
    ∀ (d : List MozPlace) (m : Nat → Option Nat) (U : String) (uid : Nat),
      HistoryImporter.find_url_id d U = some uid →
      HistoryImporter.find_url_id (HistoryImporter.place_loop mpid (d, m) ps).1 U = some uid := by
  induction ps with
  | nil => exact fun d m U uid h => h
  | cons q rest ih =>
    intro d m U uid h
    rw [place_loop_cons]
    have hstep := place_step_find_pres mpid d m q U uid h
    cases hf : HistoryImporter.find_url_id d q.url with
    | some ex =>
      rw [place_step_found mpid d m q ex hf] at hstep ⊢
      exact ih d _ U uid hstep
    | none =>
      rw [place_step_not_found mpid d m q hf] at hstep ⊢
      exact ih _ _ U uid hstep

theorem count_url_append_one (d : List MozPlace) (r : MozPlace) (u : String) :
    HistoryImporter.count_url (d ++ [r]) u =
      HistoryImporter.count_url d u + (if r.url = u then 1 else 0) := by
  by_cases hr : r.url = u <;>
    simp [HistoryImporter.count_url, List.filter_append, hr]

theorem place_loop_count_pres (mpid : Nat) (ps : List MozPlace) :
    ∀ (d : List MozPlace) (m : Nat → Option Nat) (U : String) (uid : Nat),
      HistoryImporter.find_url_id d U = some uid →
      HistoryImporter.count_url (HistoryImporter.place_loop mpid (d, m) ps).1 U =
        HistoryImporter.count_url d U := by
  induction ps with
  | nil => intro d m U uid _; rfl
  | cons q rest ih =>
    intro d m U uid h
    rw [place_loop_cons]
    cases hf : HistoryImporter.find_url_id d q.url with
    | some ex =>
      rw [place_step_found mpid d m q ex hf]
      exact ih d _ U uid h
    | none =>
      rw [place_step_not_found mpid d m q hf]
      have hqU : q.url ≠ U := by
        intro hqu
        obtain ⟨p, hp, hpu, _⟩ := find_url_id_mem d U uid h
        exact (find_url_id_eq_none d q.url).mp hf p hp (by rw [hpu, hqu])
      rw [ih _ _ U uid (find_url_id_append_left d _ U uid h), count_url_append_one]
      simp [hqU]

theorem place_loop_mapping_uid (mpid : Nat) (ps : List MozPlace) :
    ∀ (d : List MozPlace) (m : Nat → Option Nat) (U : String) (uid : Nat)
      (p : MozPlace),
      HistoryImporter.find_url_id d U = some uid →
      (ps.map (fun p => p.id)).Nodup → p ∈ ps → p.url = U →
      (HistoryImporter.place_loop mpid (d, m) ps).2 p.id = some uid := by
  induction ps with
  | nil => intro d m U uid p _ _ hp _; simp at hp
  | cons q rest ih =>
    intro d m U uid p hfind hnodup hp hurl
    rw [List.map_cons, List.nodup_cons] at hnodup
    obtain ⟨hqnot, hrest⟩ := hnodup
    rw [place_loop_cons]
    rcases List.mem_cons.mp hp with rfl | hmem
    · have hq : HistoryImporter.find_url_id d p.url = some uid := by
        rw [hurl]; exact hfind
      rw [place_step_found mpid d m p uid hq]
      rw [place_loop_mapping_stable mpid rest d _ p.id
        (fun p' hp' hip => hqnot (hip ▸ List.mem_map_of_mem (fun r => r.id) hp'))]
      simp
    · have hstep := place_step_find_pres mpid d m q U uid hfind
      cases hf : HistoryImporter.find_url_id d q.url with
      | some ex =>
        rw [place_step_found mpid d m q ex hf] at hstep ⊢
        exact ih d _ U uid p hstep hrest hmem hurl
      | none =>
        rw [place_step_not_found mpid d m q hf] at hstep ⊢
        exact ih _ _ U uid p hstep hrest hmem hurl

theorem place_loop_length_count (mpid : Nat) (ps : List MozPlace) :
    ∀ (d : List MozPlace) (m : Nat → Option Nat),
      (HistoryImporter.place_loop mpid (d, m) ps).1.length =
        d.length + HistoryImporter.count_new_urls (d.map (fun p => p.url))
          (ps.map (fun p => p.url)) := by
  induction ps with
  | nil => intro d m; simp [place_loop_nil, HistoryImporter.count_new_urls]
  | cons q rest ih =>
    intro d m
    rw [place_loop_cons, List.map_cons]
    cases hf : HistoryImporter.find_url_id d q.url with
    | some ex =>
      have hmem : q.url ∈ d.map (fun p => p.url) := by
        obtain ⟨p, hp, hpu, _⟩ := find_url_id_mem d q.url ex hf
        exact List.mem_map.mpr ⟨p, hp, hpu⟩
      rw [place_step_found mpid d m q ex hf, ih d _]
      simp [HistoryImporter.count_new_urls, hmem]
    | none =>
      have hnotmem : q.url ∉ d.map (fun p => p.url) := by
        intro hmem
        obtain ⟨p, hp, hpu⟩ := List.mem_map.mp hmem
        exact (find_url_id_eq_none d q.url).mp hf p hp hpu
      rw [place_step_not_found mpid d m q hf, ih _ _]
      simp [HistoryImporter.count_new_urls, hnotmem, List.map_append]
      omega

theorem count_new_urls_toFinset (us : List String) :
    ∀ D : List String,
      HistoryImporter.count_new_urls D us = (us.toFinset \ D.toFinset).card := by
  induction us with
  | nil => intro D; simp [HistoryImporter.count_new_urls]
  | cons u rest ih =>
    intro D
    rw [List.toFinset_cons]
    by_cases hu : u ∈ D
    · have huf : u ∈ D.toFinset := List.mem_toFinset.mpr hu
      rw [Finset.insert_sdiff_of_mem _ huf]
      simp [HistoryImporter.count_new_urls, hu, ih D]
    · have huf : u ∉ D.toFinset := fun hc => hu (List.mem_toFinset.mp hc)
      rw [Finset.insert_sdiff_of_not_mem _ huf]
      have happ : (D ++ [u]).toFinset = insert u D.toFinset := by
        rw [List.toFinset_append]
        simp only [List.toFinset_cons, List.toFinset_nil, insert_emptyc_eq]
        rw [Finset.union_comm, ← Finset.insert_eq]
      have hsd : rest.toFinset \ (D ++ [u]).toFinset =
          (rest.toFinset \ D.toFinset).erase u := by
        rw [happ, Finset.sdiff_insert]
      have hmain : HistoryImporter.count_new_urls D (u :: rest) =
          HistoryImporter.count_new_urls (D ++ [u]) rest + 1 := by
        simp [HistoryImporter.count_new_urls, hu]
      rw [hmain, ih (D ++ [u]), hsd]
      by_cases hx : u ∈ rest.toFinset \ D.toFinset
      · rw [Finset.card_erase_add_one hx, Finset.insert_eq_self.mpr hx]
      · rw [Finset.erase_eq_of_not_mem hx, Finset.card_insert_of_not_mem hx]

theorem visit_loop_nil (mapping : Nat → Option Nat) (mvid i : Nat) :
    HistoryImporter.visit_loop mapping mvid i [] = [] := rfl

theorem visit_loop_length (mapping : Nat → Option Nat) (mvid : Nat)
    (vs : List MozHistoryVisit)
    (h : ∀ v ∈ vs, mapping v.place_id ≠ none) :
    ∀ i, (HistoryImporter.visit_loop mapping mvid i vs).length = vs.length := by
  induction vs with
  | nil => intro i; rfl
  | cons v rest ih =>
    intro i
    have hrest := fun v' hv' => h v' (List.mem_cons_of_mem v hv')
    cases hm : mapping v.place_id with
    | none => exact absurd hm (h v (List.mem_cons_self v rest))
    | some pid =>
      simp [HistoryImporter.visit_loop, hm, ih hrest (i + 1)]

theorem visit_loop_mem (mapping : Nat → Option Nat) (mvid : Nat)
    (vs : List MozHistoryVisit) :
    ∀ (j i : Nat) (v : MozHistoryVisit) (pid : Nat),
      vs[i]? = some v → mapping v.place_id = some pid →
      ({ id := mvid + (j + i) + 1, from_visit := v.from_visit, place_id := pid,
         visit_date := v.visit_date, visit_type := v.visit_type,
         session := v.session } : MozHistoryVisit) ∈
        HistoryImporter.visit_loop mapping mvid j vs := by
  induction vs with
  | nil => intro j i v pid h _; simp at h
  | cons w rest ih =>
    intro j i v pid hv hm
    cases i with
    | zero =>
      rw [List.getElem?_cons_zero] at hv
      injection hv with hv
      subst hv
      simp [HistoryImporter.visit_loop, hm]
    | succ i' =>
      rw [List.getElem?_cons_succ] at hv
      have harith : j + (i' + 1) = (j + 1) + i' := by omega
      rw [harith]
      have hmem := ih (j + 1) i' v pid hv hm
      cases hw : mapping w.place_id with
      | none => simpa [HistoryImporter.visit_loop, hw] using hmem
      | some pidw =>
        simp only [HistoryImporter.visit_loop, hw]
        exact List.mem_cons_of_mem _ hmem

theorem save_rows_spec (items : List ChromeHistoryItem) :
    ∀ (i : Nat) (ps : List MozPlace) (vs : List MozHistoryVisit),
      HistoryExtractor.save_rows i items = .ok (ps, vs) →
      ps.map (fun p => p.url) = items.map (fun it => it.url) ∧
      (∀ p ∈ ps, i + 1 ≤ p.id) ∧
      (ps.map (fun p => p.id)).Nodup ∧
      vs.length = items.length ∧
      (∀ v ∈ vs, ∃ p ∈ ps, p.id = v.place_id) := by
  induction items with
  | nil =>
    intro i ps vs h
    rw [HistoryExtractor.save_rows] at h
    injection h with h
    injection h with h1 h2
    subst h1; subst h2
    simp
  | cons it rest ih =>
    intro i ps vs h
    rw [HistoryExtractor.save_rows] at h
    cases hrh : HistoryExtractor.rev_host_of it.url with
    | none => rw [hrh] at h; cases h
    | some rh =>
      rw [hrh] at h
      cases hrec : HistoryExtractor.save_rows (i + 1) rest with
      | error e => rw [hrec] at h; cases h
      | ok pr =>
        rcases pr with ⟨ps', vs'⟩
        rw [hrec] at h
        injection h with h
        injection h with h1 h2
        subst h1; subst h2
        obtain ⟨hurl, hge, hnodup, hlen, hvp⟩ := ih (i + 1) ps' vs' hrec
        refine ⟨?_, ?_, ?_, ?_, ?_⟩
        · simp [HistoryExtractor.staged_place, hurl]
        · intro p hp
          rcases List.mem_cons.mp hp with rfl | hmem
          · simp [HistoryExtractor.staged_place]
          · have := hge p hmem
            omega
        · rw [List.map_cons, List.nodup_cons]
          constructor
          · intro hmem
            obtain ⟨p, hp, hpid⟩ := List.mem_map.mp hmem
            have := hge p hp
            simp [HistoryExtractor.staged_place] at hpid
            omega
          · exact hnodup
        · simp [hlen]
        · intro v hv
          rcases List.mem_cons.mp hv with rfl | hmem
          · exact ⟨HistoryExtractor.staged_place i it rh, List.mem_cons_self _ _, rfl⟩
          · obtain ⟨p, hp, hpid⟩ := hvp v hmem
            exact ⟨p, List.mem_cons_of_mem _ hp, hpid⟩

theorem merge_steps_full (db st : PlacesDb) :
    HistoryImporter.merge_steps db st
        (st.moz_places.length + st.moz_historyvisits.length) =
      { moz_places := (HistoryImporter.place_loop (HistoryImporter.max_place_id db)
          (db.moz_places, fun _ => none) st.moz_places).1,
        moz_historyvisits := db.moz_historyvisits ++
          HistoryImporter.visit_loop (HistoryImporter.place_id_mapping db st)
            (HistoryImporter.max_visit_id db) 0 st.moz_historyvisits } := by
  rw [HistoryImporter.merge_steps, HistoryImporter.place_id_mapping]
  rw [List.take_of_length_le (Nat.le_add_right _ _), Nat.add_sub_cancel_left,
    List.take_length]

theorem import_none_places_db (db st : PlacesDb) :
    (HistoryImporter.import_history_via_database db st none).places_db =
      HistoryImporter.merge_steps db st
        (st.moz_places.length + st.moz_historyvisits.length) := rfl

/-! ### C2: merge deduplication by URL -/

/-- C2: when the destination holds exactly one place row for URL `U`
(found under id `uid`) and the staged place rows have pairwise-distinct
ids, a fault-free merge inserts no further row for `U` (its row count
stays 1), records `uid` in the identifier map for every staged place whose
URL is `U`, and inserts every staged visit whose place id is mapped with
exactly the mapped destination place id — so all of `U`'s imported visits
reference the single pre-existing row. -/
theorem c2_merge_dedup (db st : PlacesDb) (U : String) (uid : Nat)
    (hids : (st.moz_places.map (fun p => p.id)).Nodup)
    (hfind : HistoryImporter.find_url_id db.moz_places U = some uid)
    (hcount : HistoryImporter.count_url db.moz_places U = 1) :
    HistoryImporter.count_url
        (HistoryImporter.import_history_via_database db st none).places_db.moz_places
        U = 1 ∧
    (∀ p ∈ st.moz_places, p.url = U →
      HistoryImporter.place_id_mapping db st p.id = some uid) ∧
    (∀ (i : Nat) (v : MozHistoryVisit), st.moz_historyvisits[i]? = some v →
      ∀ pid : Nat, HistoryImporter.place_id_mapping db st v.place_id = some pid →
        ({ id := HistoryImporter.max_visit_id db + i + 1,
           from_visit := v.from_visit, place_id := pid,
           visit_date := v.visit_date, visit_type := v.visit_type,
           session := v.session } : MozHistoryVisit) ∈
          (HistoryImporter.import_history_via_database db st
            none).places_db.moz_historyvisits) := by
  refine ⟨?_, ?_, ?_⟩
  · rw [import_none_places_db, merge_steps_full]
    exact (place_loop_count_pres (HistoryImporter.max_place_id db) st.moz_places
      db.moz_places _ U uid hfind).trans hcount
  · intro p hp hurl
    exact place_loop_mapping_uid (HistoryImporter.max_place_id db) st.moz_places
      db.moz_places _ U uid p hfind hids hp hurl
  · intro i v hv pid hm
    rw [import_none_places_db, merge_steps_full]
    apply List.mem_append_right
    have := visit_loop_mem (HistoryImporter.place_id_mapping db st)
      (HistoryImporter.max_visit_id db) st.moz_historyvisits 0 i v pid hv hm
    simpa using this

/-- C2 witness: the deduplication theorem applied to the spec's concrete
scenario — destination place id 7 holds `https://a.test`, the staged input
carries two rows (ids 1 and 2) for the same URL with one visit each. -/
theorem c2_merge_dedup_witness :
    ((PlacesDb.mk
        [MozPlace.mk 1 "https://a.test" "A" "tset.a." 1 0 0 100 50 "g1",
         MozPlace.mk 2 "https://a.test" "A" "tset.a." 1 0 0 100 60 "g2"]
        [MozHistoryVisit.mk 1 0 1 50 1 0, MozHistoryVisit.mk 2 0 2 60 1 0]).moz_places.map
          (fun p => p.id)).Nodup ∧
    HistoryImporter.find_url_id
      (PlacesDb.mk [MozPlace.mk 7 "https://a.test" "A" "tset.a." 3 0 0 100 40 "g7"]
        []).moz_places "https://a.test" = some 7 ∧
    HistoryImporter.count_url
      (PlacesDb.mk [MozPlace.mk 7 "https://a.test" "A" "tset.a." 3 0 0 100 40 "g7"]
        []).moz_places "https://a.test" = 1 ∧
    HistoryImporter.count_url
      (HistoryImporter.import_history_via_database
        (PlacesDb.mk [MozPlace.mk 7 "https://a.test" "A" "tset.a." 3 0 0 100 40 "g7"] [])
        (PlacesDb.mk
          [MozPlace.mk 1 "https://a.test" "A" "tset.a." 1 0 0 100 50 "g1",
           MozPlace.mk 2 "https://a.test" "A" "tset.a." 1 0 0 100 60 "g2"]
          [MozHistoryVisit.mk 1 0 1 50 1 0, MozHistoryVisit.mk 2 0 2 60 1 0])
        none).places_db.moz_places "https://a.test" = 1 :=
  ⟨by decide, by decide, by decide,
   (c2_merge_dedup
      (PlacesDb.mk [MozPlace.mk 7 "https://a.test" "A" "tset.a." 3 0 0 100 40 "g7"] [])
      (PlacesDb.mk
        [MozPlace.mk 1 "https://a.test" "A" "tset.a." 1 0 0 100 50 "g1",
         MozPlace.mk 2 "https://a.test" "A" "tset.a." 1 0 0 100 60 "g2"]
        [MozHistoryVisit.mk 1 0 1 50 1 0, MozHistoryVisit.mk 2 0 2 60 1 0])
      "https://a.test" 7 (by decide) (by decide) (by decide)).1⟩

/-! ### C3: merge row-count postcondition -/

/-- C3: a fault-free merge of a staged history window whose URLs are all
absent from the destination succeeds, grows the destination place-row
count by exactly the number of distinct URLs among the items (the staging
step emits one place row per visit, so duplicate URLs occur among the
incoming rows), and grows the visit-row count by exactly the number of
staged visit rows (one per item). -/
theorem c3_merge_rowcount (db : PlacesDb) (items : List ChromeHistoryItem)
    (st : PlacesDb)
    (hst : HistoryExtractor.save_to_sqlite items = .ok st)
    (hnew : ∀ it ∈ items, ∀ p ∈ db.moz_places, p.url ≠ it.url) :
    (HistoryImporter.import_history_via_database db st none).success = true ∧
    (HistoryImporter.import_history_via_database db st
          none).places_db.moz_places.length =
      db.moz_places.length + (items.map (fun it => it.url)).dedup.length ∧
    (HistoryImporter.import_history_via_database db st
          none).places_db.moz_historyvisits.length =
      db.moz_historyvisits.length + items.length := by
  rw [HistoryExtractor.save_to_sqlite] at hst
  cases hsr : HistoryExtractor.save_rows 0 items with
  | error e => rw [hsr] at hst; cases hst
  | ok pr =>
    rcases pr with ⟨ps, vs⟩
    rw [hsr] at hst
    injection hst with hst
    obtain ⟨hurl, hge, hnodup, hlen, hvp⟩ := save_rows_spec items 0 ps vs hsr
    subst hst
    refine ⟨rfl, ?_, ?_⟩
    · show (HistoryImporter.merge_steps db (PlacesDb.mk ps vs)
          ((PlacesDb.mk ps vs).moz_places.length +
            (PlacesDb.mk ps vs).moz_historyvisits.length)).moz_places.length = _
      rw [merge_steps_full]
      rw [place_loop_length_count]
      congr 1
      rw [show ps.map (fun p => p.url) = items.map (fun it => it.url) from hurl]
      rw [count_new_urls_toFinset]
      have hsd : (items.map (fun it => it.url)).toFinset \
          (db.moz_places.map (fun p => p.url)).toFinset =
          (items.map (fun it => it.url)).toFinset := by
        ext x
        simp only [Finset.mem_sdiff, List.mem_toFinset, List.mem_map]
        constructor
        · rintro ⟨hx, _⟩
          exact hx
        · rintro ⟨it, hit, rfl⟩
          refine ⟨⟨it, hit, rfl⟩, ?_⟩
          rintro ⟨p, hp, hpu⟩
          exact hnew it hit p hp hpu
      rw [hsd, List.card_toFinset]
    · show (HistoryImporter.merge_steps db (PlacesDb.mk ps vs)
          ((PlacesDb.mk ps vs).moz_places.length +
            (PlacesDb.mk ps vs).moz_historyvisits.length)).moz_historyvisits.length = _
      rw [merge_steps_full]
      rw [List.length_append]
      congr 1
      have hall : ∀ v ∈ vs,
          HistoryImporter.place_id_mapping db (PlacesDb.mk ps vs) v.place_id ≠ none := by
        intro v hv
        obtain ⟨p, hp, hpid⟩ := hvp v hv
        obtain ⟨y, hy⟩ := place_loop_mapping_mem (HistoryImporter.max_place_id db) ps
          db.moz_places (fun _ => none) p hp
        rw [HistoryImporter.place_id_mapping]
        intro hc
        rw [← hpid] at hc
        rw [hy] at hc
        cases hc
      rw [visit_loop_length _ _ _ hall 0, hlen]

/-- C3 witness: the row-count theorem applied to one staged item merged
into an empty destination. -/
theorem c3_merge_rowcount_witness :
    HistoryExtractor.save_to_sqlite
        [ChromeHistoryItem.mk "https://a.test" "T" 100 1 100 0 false] =
      .ok (PlacesDb.mk
        [MozPlace.mk 1 "https://a.test" "T" "tset.a." 1 0 0 100 100 "chrome-import-0"]
        [MozHistoryVisit.mk 1 0 1 100 1 0]) ∧
    (∀ it ∈ [ChromeHistoryItem.mk "https://a.test" "T" 100 1 100 0 false],
      ∀ p ∈ (PlacesDb.mk [] []).moz_places, p.url ≠ it.url) ∧
    (HistoryImporter.import_history_via_database (PlacesDb.mk [] [])
        (PlacesDb.mk
          [MozPlace.mk 1 "https://a.test" "T" "tset.a." 1 0 0 100 100 "chrome-import-0"]
          [MozHistoryVisit.mk 1 0 1 100 1 0])
        none).places_db.moz_places.length =
      (PlacesDb.mk [] []).moz_places.length +
        ([ChromeHistoryItem.mk "https://a.test" "T" 100 1 100 0 false].map
          (fun it => it.url)).dedup.length :=
  ⟨by rfl, by decide,
   (c3_merge_rowcount (PlacesDb.mk [] [])
      [ChromeHistoryItem.mk "https://a.test" "T" 100 1 100 0 false]
      (PlacesDb.mk
        [MozPlace.mk 1 "https://a.test" "T" "tset.a." 1 0 0 100 100 "chrome-import-0"]
        [MozHistoryVisit.mk 1 0 1 100 1 0])
      (by rfl) (by decide)).2.1⟩
